import Mathlib

/-!
# Verification of the Solana Epoch Tracker core logic (`src/app.py`)

Shallow embedding of the pure computational core of the application:

* `estimate_slot_duration` — the arithmetic of the slot-duration sampler,
  over the list of successfully collected `(time, slot)` pairs;
* `estimate_total_transactions` — stride sampling of blocks over a slot
  range and extrapolation of the total transaction count;
* `record_epoch_stats` / `load_epoch_stats` — the idempotent, keyed
  per-epoch stats store (a CSV file, modelled as `Option (List EpochStatRow)`
  where `none` is "file does not exist");
* `render_current_epoch` quantities (completion percentage, epoch boundary
  slots) and its store side effect (the `slot_index < 10` recording branch);
* `generate_full_epoch_history` — arithmetic reconstruction of all epoch
  boundary records back to epoch 0.

Python floats are modelled by `ℚ`, Python ints by `ℤ` (or `ℕ` for counts),
block RPC lookups (`get_block`) by an oracle `ℤ → Option ℕ` giving the
length of the block's transaction list when the lookup succeeds and the
block carries a `"transactions"` field, and `none` otherwise (request
failure, null result, or a result without a transaction list).
-/

/-- Constant `FIXED_SLOT_DURATION = 0.4` (src/app.py line 13). -/
def FIXED_SLOT_DURATION : ℚ := 2/5

/-- Constant `SLOTS_PER_EPOCH = 432000` (src/app.py line 12). -/
def SLOTS_PER_EPOCH : ℕ := 432000

/-- Python `range(start, stop, step)` for a positive `step`, as a list of
integers: `start, start+step, …` strictly below `stop`. -/
def pyRange (start stop : ℤ) (step : ℕ) : List ℤ :=
  (List.range (((stop - start).toNat + step - 1) / step)).map
    (fun i : ℕ => start + (step : ℤ) * (i : ℤ))

/-- Python `int(q)` on a rational: truncation toward zero. -/
def pyInt (q : ℚ) : ℤ := if q < 0 then ⌈q⌉ else ⌊q⌋

/-- The arithmetic core of `estimate_slot_duration` (src/app.py lines 26-38):
given the list `slots` of successfully collected `(time, slot)` samples, use
the first (`slots[0]`) and last (`slots[-1]`) entries to derive seconds per
slot, falling back to `FIXED_SLOT_DURATION` when fewer than two samples were
collected or when the slot number did not change. -/
def estimate_slot_duration (slots : List (ℚ × ℤ)) : ℚ :=
  if 2 ≤ slots.length then
    match slots.head?, slots.getLast? with
    | some (t0, s0), some (t1, s1) =>
      if s1 ≠ s0 then (t1 - t0) / ((s1 : ℚ) - (s0 : ℚ)) else FIXED_SLOT_DURATION
    | _, _ => FIXED_SLOT_DURATION
  else FIXED_SLOT_DURATION

/-- The sampling loop of `estimate_total_transactions` (src/app.py lines
58-64): fold over the candidate slots, accumulating `(tx_count,
slots_sampled)`; a slot whose block lookup yields `none` leaves both
components unchanged. -/
def sample_blocks (get_block : ℤ → Option ℕ) (slots : List ℤ) : ℕ × ℕ :=
  slots.foldl
    (fun acc slot =>
      match get_block slot with
      | some n => (acc.1 + n, acc.2 + 1)
      | none => acc)
    (0, 0)

/-- Function `estimate_total_transactions` (src/app.py lines 57-67): sample blocks at
stride `sample_rate` over `range(start_slot, end_slot, sample_rate)`,
average the transaction counts of the resolved blocks (0 if none resolved),
extrapolate over `end_slot - start_slot` slots and truncate with `int()`. -/
def estimate_total_transactions (get_block : ℤ → Option ℕ)
    (start_slot end_slot : ℤ) (sample_rate : ℕ) : ℤ :=
  let acc := sample_blocks get_block (pyRange start_slot end_slot sample_rate)
  let avg_tx_per_block : ℚ := if acc.2 = 0 then 0 else (acc.1 : ℚ) / (acc.2 : ℚ)
  pyInt (avg_tx_per_block * ((end_slot : ℚ) - (start_slot : ℚ)))

/-- The transaction counts of the blocks that resolved among `slots`, in
sampling order (spec-side view of the sampling loop). -/
def resolved_samples (get_block : ℤ → Option ℕ) (slots : List ℤ) : List ℕ :=
  slots.filterMap get_block

/-- The spec's formulation of the extrapolation, with `round` (round to
nearest) in place of the code's `int()` truncation, for comparison. -/
def estimate_total_transactions_rounded (get_block : ℤ → Option ℕ)
    (start_slot end_slot : ℤ) (sample_rate : ℕ) : ℤ :=
  let resolved := resolved_samples get_block (pyRange start_slot end_slot sample_rate)
  let avg : ℚ := if resolved.length = 0 then 0 else (resolved.sum : ℚ) / (resolved.length : ℚ)
  round (avg * ((end_slot : ℚ) - (start_slot : ℚ)))

/-- One row of the epoch stats CSV (src/app.py line 71): epoch key,
estimated total transactions, and the recording timestamp. -/
structure EpochStatRow where
  epoch : ℤ
  txEstimate : ℤ
  timestamp : ℚ
deriving DecidableEq

/-- Function `record_epoch_stats` (src/app.py lines 69-79). The backing CSV file is
`none` when it does not exist yet. When the file exists, a row is appended
only if no row with the same `Epoch` key is present; otherwise nothing is
written. When the file does not exist it is created with the single row. -/
def record_epoch_stats (epoch tx_estimate : ℤ) (now : ℚ)
    (store : Option (List EpochStatRow)) : Option (List EpochStatRow) :=
  let row : EpochStatRow := ⟨epoch, tx_estimate, now⟩
  match store with
  | some df => if epoch ∈ df.map EpochStatRow.epoch then some df else some (df ++ [row])
  | none => some [row]

/-- Function `load_epoch_stats` (src/app.py lines 81-84): the full row list, empty
when the file does not exist. -/
def load_epoch_stats (store : Option (List EpochStatRow)) : List EpochStatRow :=
  store.getD []

/-- The `getEpochInfo` RPC result fields used by the app (src/app.py lines
87-95). -/
structure EpochInfo where
  epoch : ℤ
  slotIndex : ℤ
  slotsInEpoch : ℤ
  absoluteSlot : ℤ
deriving DecidableEq

/-- Quantity `pct_done = (slot_index / slots_in_epoch) * 100` (src/app.py line 91). -/
def pct_done (data : EpochInfo) : ℚ :=
  ((data.slotIndex : ℚ) / (data.slotsInEpoch : ℚ)) * 100

/-- Quantity `remaining_slots = slots_in_epoch - slot_index` (src/app.py line 90). -/
def remaining_slots (data : EpochInfo) : ℤ :=
  data.slotsInEpoch - data.slotIndex

/-- Quantity `time_remaining_sec = remaining_slots * slot_duration` (src/app.py line 92). -/
def time_remaining_sec (data : EpochInfo) (slot_duration : ℚ) : ℚ :=
  ((remaining_slots data : ℤ) : ℚ) * slot_duration

/-- Quantity `start_slot = data['absoluteSlot'] - data['slotIndex']` (src/app.py line 95). -/
def epoch_start_slot (data : EpochInfo) : ℤ :=
  data.absoluteSlot - data.slotIndex

/-- Quantity `end_slot = start_slot + slots_in_epoch - 1` (src/app.py line 96). -/
def epoch_end_slot (data : EpochInfo) : ℤ :=
  epoch_start_slot data + data.slotsInEpoch - 1

/-- The store side effect of `render_current_epoch` (src/app.py lines
107-110): when `slot_index < 10`, estimate transactions over
`(start_slot, end_slot)` of the current epoch (default stride 1000) and
record the result under key `epoch - 1`; otherwise the store is untouched. -/
def render_current_epoch_store (get_block : ℤ → Option ℕ) (data : EpochInfo)
    (now : ℚ) (store : Option (List EpochStatRow)) : Option (List EpochStatRow) :=
  if data.slotIndex < 10 then
    record_epoch_stats (data.epoch - 1)
      (estimate_total_transactions get_block (epoch_start_slot data) (epoch_end_slot data) 1000)
      now store
  else store

/-- One row of `generate_full_epoch_history`'s result (src/app.py lines
120-128); the two "Approximate" block columns are constant strings and are
omitted. -/
structure EpochBoundaryRow where
  epoch : ℤ
  startSlot : ℤ
  endSlot : ℤ
  estStart : ℚ
  estEnd : ℚ
deriving DecidableEq

/-- Function `generate_full_epoch_history` (src/app.py lines 112-129): one row per
`i` in `range(current_epoch + 1)`, counting down from the current epoch,
with slot boundaries obtained by pure arithmetic from the current epoch's
starting slot and timestamps from `now` and the fixed reference duration. -/
def generate_full_epoch_history (current_epoch current_starting_slot : ℤ)
    (now : ℚ) : List EpochBoundaryRow :=
  (List.range (current_epoch + 1).toNat).map (fun i : ℕ =>
    { epoch := current_epoch - (i : ℤ)
      startSlot := current_starting_slot - (SLOTS_PER_EPOCH : ℤ) * (i : ℤ)
      endSlot := current_starting_slot - (SLOTS_PER_EPOCH : ℤ) * (i : ℤ) + (SLOTS_PER_EPOCH : ℤ) - 1
      estStart := now - (SLOTS_PER_EPOCH : ℚ) * (i : ℚ) * FIXED_SLOT_DURATION
      estEnd := now - (SLOTS_PER_EPOCH : ℚ) * (i : ℚ) * FIXED_SLOT_DURATION
        + (SLOTS_PER_EPOCH : ℚ) * FIXED_SLOT_DURATION })

/-! ## Helper lemmas -/

/-- Every slot produced by `pyRange start stop step` (with positive `step`)
lies in the half-open interval `[start, stop)`. -/
lemma mem_pyRange_bounds {start stop : ℤ} {step : ℕ} (hstep : 0 < step)
    {s : ℤ} (hs : s ∈ pyRange start stop step) : start ≤ s ∧ s < stop := by
  unfold pyRange at hs
  rcases List.mem_map.mp hs with ⟨i, hi, rfl⟩
  rw [List.mem_range] at hi
  have h1 : (i + 1) * step ≤ (stop - start).toNat + step - 1 :=
    (Nat.le_div_iff_mul_le hstep).mp hi
  have h2 : i * step + step ≤ (stop - start).toNat + step - 1 := by
    rw [Nat.succ_mul] at h1; exact h1
  have h3 : i * step < (stop - start).toNat := by omega
  have h4 : 0 < (stop - start).toNat := by omega
  have h5 : (0 : ℤ) < stop - start := by omega
  have h6 : ((i * step : ℕ) : ℤ) < stop - start := by omega
  constructor
  · have : (0 : ℤ) ≤ (step : ℤ) * (i : ℤ) := by positivity
    omega
  · push_cast at h6
    nlinarith [h6]

/-- When the slot range is empty (`stop ≤ start`), no candidate slot is
produced. -/
lemma pyRange_eq_nil {start stop : ℤ} (h : stop ≤ start) (step : ℕ) :
    pyRange start stop step = [] := by
  unfold pyRange
  have hd : (stop - start).toNat = 0 := by omega
  rcases Nat.eq_zero_or_pos step with hstep | hstep
  · subst hstep; simp [hd]
  · have : (0 + step - 1) / step = 0 := Nat.div_eq_of_lt (by omega)
    rw [hd, this]
    simp

/-- The sampling loop computes exactly the sum and the number of resolved
samples: unresolved slots are excluded from both components. -/
lemma sample_blocks_eq (get_block : ℤ → Option ℕ) (slots : List ℤ) :
    sample_blocks get_block slots =
      ((resolved_samples get_block slots).sum, (resolved_samples get_block slots).length) := by
  suffices h : ∀ (l : List ℤ) (a b : ℕ),
      l.foldl
        (fun acc slot =>
          match get_block slot with
          | some n => (acc.1 + n, acc.2 + 1)
          | none => acc)
        (a, b) =
      (a + (resolved_samples get_block l).sum, b + (resolved_samples get_block l).length) by
    have := h slots 0 0
    simpa [sample_blocks] using this
  intro l
  induction l with
  | nil => intro a b; simp [resolved_samples]
  | cons x xs ih =>
    intro a b
    rcases hx : get_block x with _ | n
    · simp only [List.foldl_cons, hx]
      rw [ih a b]
      simp [resolved_samples, List.filterMap_cons, hx]
    · simp only [List.foldl_cons, hx]
      rw [ih (a + n) (b + 1)]
      simp [resolved_samples, List.filterMap_cons, hx]
      omega

/-- A row key occurs in the mapped key list exactly when some row carries
it, counted by `countP`. -/
lemma mem_keys_iff_countP_pos (df : List EpochStatRow) (e : ℤ) :
    e ∈ df.map EpochStatRow.epoch ↔ 0 < df.countP (fun r => decide (r.epoch = e)) := by
  rw [List.countP_pos_iff, List.mem_map]
  constructor
  · rintro ⟨r, hr, he⟩; exact ⟨r, hr, by simp [he]⟩
  · rintro ⟨r, hr, he⟩; exact ⟨r, hr, by simpa using he⟩

/-! ## Claim theorems -/

/-- C5: when at least 2 samples succeed and the last successful sample's
slot differs from the first's, `estimate_slot_duration` returns
(time of last - time of first) / (slot of last - slot of first), ignoring
all intermediate samples; in particular, with exactly two successful
samples `(t0=0, s0=100)` and `(t1=40, s1=200)` it returns `0.4`. -/
theorem estimate_slot_duration_first_last :
    (∀ (slots : List (ℚ × ℤ)) (t0 t1 : ℚ) (s0 s1 : ℤ),
      2 ≤ slots.length → slots.head? = some (t0, s0) → slots.getLast? = some (t1, s1) →
      s1 ≠ s0 → estimate_slot_duration slots = (t1 - t0) / ((s1 : ℚ) - (s0 : ℚ))) ∧
    estimate_slot_duration [((0 : ℚ), (100 : ℤ)), (40, 200)] = 2/5 := by
  constructor
  · intro slots t0 t1 s0 s1 hlen hh hl hne
    unfold estimate_slot_duration
    rw [hh, hl, if_pos hlen]
    simp [hne]
  · norm_num [estimate_slot_duration, FIXED_SLOT_DURATION]

/-- Witness for C5: the theorem applied to the concrete two-sample outcome
`(0, 100)`, `(40, 200)`. -/
theorem estimate_slot_duration_first_last_witness :
    estimate_slot_duration [((0 : ℚ), (100 : ℤ)), (40, 200)] =
      (40 - 0) / (((200 : ℤ) : ℚ) - ((100 : ℤ) : ℚ)) :=
  estimate_slot_duration_first_last.1 [((0 : ℚ), (100 : ℤ)), (40, 200)] 0 40 100 200
    (by decide) rfl rfl (by decide)

/-- C6: with fewer than 2 successful samples, or when the first and last
successful samples report the same slot number, `estimate_slot_duration`
returns the static fallback constant `FIXED_SLOT_DURATION = 0.4` (total, no
division by zero is performed). -/
theorem estimate_slot_duration_fallback (slots : List (ℚ × ℤ))
    (h : slots.length < 2 ∨
      ∃ t0 t1 : ℚ, ∃ s : ℤ, slots.head? = some (t0, s) ∧ slots.getLast? = some (t1, s)) :
    estimate_slot_duration slots = FIXED_SLOT_DURATION := by
  unfold estimate_slot_duration
  rcases h with h | ⟨t0, t1, s, hh, hl⟩
  · rw [if_neg (by omega)]
  · by_cases hlen : 2 ≤ slots.length
    · rw [hh, hl, if_pos hlen]
      simp
    · rw [if_neg hlen]

/-- Witness for C6: a stalled-chain outcome where both samples report slot
5 yields the fallback constant. -/
theorem estimate_slot_duration_fallback_witness :
    estimate_slot_duration [((0 : ℚ), (5 : ℤ)), (3, 5)] = FIXED_SLOT_DURATION :=
  estimate_slot_duration_fallback [((0 : ℚ), (5 : ℤ)), (3, 5)]
    (Or.inr ⟨0, 3, 5, rfl, rfl⟩)

/-- C9 (counterexample): the claim "for every sampling outcome the returned
value is strictly positive" is false: the outcome with successful samples
`(0, 100)` and `(40, 50)` (slot number decreasing) makes
`estimate_slot_duration` return `-0.8`, which is not positive. -/
theorem estimate_slot_duration_pos_cex :
    ¬ (0 < estimate_slot_duration [((0 : ℚ), (100 : ℤ)), (40, 50)]) := by
  have h : estimate_slot_duration [((0 : ℚ), (100 : ℤ)), (40, 50)] = -4/5 := by
    norm_num [estimate_slot_duration]
  rw [h]
  norm_num

/-- C9 (amended): `estimate_slot_duration` always returns a value, and that
value is strictly positive provided that, whenever the first and last
successful samples have distinct slot numbers, their time delta and slot
delta have the same sign — in particular for every outcome produced by a
monotone clock and a non-decreasing chain. -/
theorem estimate_slot_duration_pos (slots : List (ℚ × ℤ))
    (h : ∀ t0 t1 : ℚ, ∀ s0 s1 : ℤ,
      slots.head? = some (t0, s0) → slots.getLast? = some (t1, s1) →
      s1 ≠ s0 → 0 < (t1 - t0) * (((s1 : ℤ) : ℚ) - ((s0 : ℤ) : ℚ))) :
    0 < estimate_slot_duration slots := by
  have hq : (0 : ℚ) < FIXED_SLOT_DURATION := by norm_num [FIXED_SLOT_DURATION]
  by_cases hlen : 2 ≤ slots.length
  · unfold estimate_slot_duration
    rw [if_pos hlen]
    rcases hh : slots.head? with _ | ⟨t0, s0⟩ <;>
      rcases hl : slots.getLast? with _ | ⟨t1, s1⟩
    · exact hq
    · exact hq
    · exact hq
    · by_cases hne : s1 ≠ s0
      · have hpos := h t0 t1 s0 s1 hh hl hne
        show 0 < if s1 ≠ s0 then (t1 - t0) / ((s1 : ℚ) - (s0 : ℚ)) else FIXED_SLOT_DURATION
        rw [if_pos hne]
        exact div_pos_iff.mpr (mul_pos_iff.mp hpos)
      · show 0 < if s1 ≠ s0 then (t1 - t0) / ((s1 : ℚ) - (s0 : ℚ)) else FIXED_SLOT_DURATION
        rw [if_neg hne]
        exact hq
  · unfold estimate_slot_duration
    rw [if_neg hlen]
    exact hq

/-- Witness for C9 (amended): the outcome `(0, 100)`, `(40, 200)` satisfies
the same-sign condition and the estimate is positive. -/
theorem estimate_slot_duration_pos_witness :
    0 < estimate_slot_duration [((0 : ℚ), (100 : ℤ)), (40, 200)] := by
  refine estimate_slot_duration_pos [((0 : ℚ), (100 : ℤ)), (40, 200)] ?_
  intro t0 t1 s0 s1 hh hl hne
  simp only [List.head?_cons, Option.some.injEq, Prod.mk.injEq] at hh
  have hl' : (some ((40 : ℚ), (200 : ℤ)) : Option (ℚ × ℤ)) = some (t1, s1) := by
    rw [← hl]; rfl
  simp only [Option.some.injEq, Prod.mk.injEq] at hl'
  obtain ⟨rfl, rfl⟩ := hh
  obtain ⟨rfl, rfl⟩ := hl'
  norm_num

/-- C7: for every `EpochInfo` with positive `slotsInEpoch`, the completion
percentage computed by `render_current_epoch` equals
`100 * slotIndex / slotsInEpoch`; it is 0 when `slotIndex = 0` and strictly
below 100 when `slotIndex = slotsInEpoch - 1`. -/
theorem pct_done_spec (data : EpochInfo) (h : 0 < data.slotsInEpoch) :
    pct_done data = 100 * (data.slotIndex : ℚ) / (data.slotsInEpoch : ℚ) ∧
    (data.slotIndex = 0 → pct_done data = 0) ∧
    (data.slotIndex = data.slotsInEpoch - 1 → pct_done data < 100) := by
  have hn : (0 : ℚ) < (data.slotsInEpoch : ℚ) := by exact_mod_cast h
  refine ⟨by unfold pct_done; ring, fun h0 => by simp [pct_done, h0], fun hi => ?_⟩
  rw [pct_done, hi, div_mul_eq_mul_div, div_lt_iff₀ hn]
  push_cast
  nlinarith [hn]

/-- Witness for C7: an epoch at its final slot index
(`slotIndex = slotsInEpoch - 1 = 431999`) has completion percentage
strictly below 100. -/
theorem pct_done_spec_witness :
    pct_done ⟨0, 431999, 432000, 431999⟩ < 100 :=
  (pct_done_spec ⟨0, 431999, 432000, 431999⟩ (by decide)).2.2 (by decide)

/-- C1 (counterexample): the claim that the result equals
`round(avgTxPerSampledBlock * (endSlot - startSlot))` is false: with blocks
resolved at slot 0 (1 tx) and slot 2 (0 tx), stride 2 over `[0, 3)`, the
average is `1/2` and the extrapolation `3/2`; the code's `int()` truncation
returns 1 while rounding to nearest returns 2. -/
theorem estimate_total_transactions_round_cex :
    estimate_total_transactions
        (fun s => if s = 0 then some 1 else if s = 2 then some 0 else none) 0 3 2 ≠
      estimate_total_transactions_rounded
        (fun s => if s = 0 then some 1 else if s = 2 then some 0 else none) 0 3 2 := by
  have h1 : pyRange 0 3 2 = [0, 2] := by decide
  have h2 : sample_blocks
      (fun s => if s = 0 then some 1 else if s = 2 then some 0 else none) [0, 2] = (1, 2) := by
    decide
  have h3 : resolved_samples
      (fun s => if s = 0 then some 1 else if s = 2 then some 0 else none) [0, 2] = [1, 0] := by
    decide
  have hL : estimate_total_transactions
      (fun s => if s = 0 then some 1 else if s = 2 then some 0 else none) 0 3 2 = 1 := by
    unfold estimate_total_transactions
    rw [h1, h2]
    norm_num [pyInt]
  have hR : estimate_total_transactions_rounded
      (fun s => if s = 0 then some 1 else if s = 2 then some 0 else none) 0 3 2 = 2 := by
    unfold estimate_total_transactions_rounded
    rw [h1, h3]
    norm_num [round_eq]
  rw [hL, hR]
  decide

/-- C1 (amended): for `startSlot < endSlot` and positive stride, the result
of `estimate_total_transactions` equals the `int()` truncation (not the
rounding to nearest) of the average transaction count of the resolved
sampled blocks (0 when none resolved) times `endSlot - startSlot`; in
particular, with blocks resolved at slots 0 (10 tx) and 500 (20 tx) and
stride 500 over `[0, 1000)`, the result is 15000. -/
theorem estimate_total_transactions_trunc :
    (∀ (get_block : ℤ → Option ℕ) (a b : ℤ) (r : ℕ), a < b → 0 < r →
      estimate_total_transactions get_block a b r =
        pyInt ((if (resolved_samples get_block (pyRange a b r)).length = 0 then 0
            else ((resolved_samples get_block (pyRange a b r)).sum : ℚ) /
              ((resolved_samples get_block (pyRange a b r)).length : ℚ)) *
          ((b : ℚ) - (a : ℚ)))) ∧
    estimate_total_transactions
      (fun s => if s = 0 then some 10 else if s = 500 then some 20 else none) 0 1000 500 = 15000 := by
  constructor
  · intro get_block a b r _ _
    unfold estimate_total_transactions
    rw [sample_blocks_eq]
  · have h1 : pyRange 0 1000 500 = [0, 500] := by decide
    have h2 : sample_blocks
        (fun s => if s = 0 then some 10 else if s = 500 then some 20 else none) [0, 500] =
        (30, 2) := by decide
    unfold estimate_total_transactions
    rw [h1, h2]
    norm_num [pyInt]

/-- Witness for C1 (amended): the truncation identity applied at the
concrete 15000 instance, with both hypotheses discharged. -/
theorem estimate_total_transactions_trunc_witness :
    estimate_total_transactions
        (fun s => if s = 0 then some 10 else if s = 500 then some 20 else none) 0 1000 500 =
      pyInt ((if (resolved_samples
            (fun s => if s = 0 then some 10 else if s = 500 then some 20 else none)
            (pyRange 0 1000 500)).length = 0 then 0
          else ((resolved_samples
              (fun s => if s = 0 then some 10 else if s = 500 then some 20 else none)
              (pyRange 0 1000 500)).sum : ℚ) /
            ((resolved_samples
              (fun s => if s = 0 then some 10 else if s = 500 then some 20 else none)
              (pyRange 0 1000 500)).length : ℚ)) *
        ((1000 : ℚ) - (0 : ℚ))) :=
  estimate_total_transactions_trunc.1
    (fun s => if s = 0 then some 10 else if s = 500 then some 20 else none) 0 1000 500
    (by decide) (by decide)

/-- C8: `estimate_total_transactions` samples only candidate slots in the
half-open range `[startSlot, endSlot)` at the given stride (the result
depends only on the block oracle's values there); a sampled slot whose
lookup fails contributes to neither the transaction accumulator nor the
sampled-slot counter; and if no sampled slot resolves the function returns
0 rather than dividing by zero. -/
theorem estimate_total_transactions_sampling (get_block : ℤ → Option ℕ)
    (a b : ℤ) (r : ℕ) (hr : 0 < r) :
    (∀ s ∈ pyRange a b r, a ≤ s ∧ s < b) ∧
    sample_blocks get_block (pyRange a b r) =
      ((resolved_samples get_block (pyRange a b r)).sum,
        (resolved_samples get_block (pyRange a b r)).length) ∧
    (∀ get_other : ℤ → Option ℕ, (∀ s ∈ pyRange a b r, get_block s = get_other s) →
      estimate_total_transactions get_block a b r =
        estimate_total_transactions get_other a b r) ∧
    ((∀ s ∈ pyRange a b r, get_block s = none) →
      estimate_total_transactions get_block a b r = 0) := by
  refine ⟨fun s hs => mem_pyRange_bounds hr hs, sample_blocks_eq _ _, ?_, ?_⟩
  · intro get_other hagree
    have hres : resolved_samples get_block (pyRange a b r) =
        resolved_samples get_other (pyRange a b r) :=
      List.filterMap_congr hagree
    unfold estimate_total_transactions
    rw [sample_blocks_eq, sample_blocks_eq, hres]
  · intro hnone
    have hres : resolved_samples get_block (pyRange a b r) = [] := by
      unfold resolved_samples
      rw [List.filterMap_eq_nil_iff]
      exact hnone
    unfold estimate_total_transactions
    rw [sample_blocks_eq, hres]
    norm_num [pyInt]

/-- Witness for C8: with an oracle that never resolves, the estimate over
`[0, 1000)` at stride 500 is 0. -/
theorem estimate_total_transactions_sampling_witness :
    estimate_total_transactions (fun _ => none) 0 1000 500 = 0 :=
  (estimate_total_transactions_sampling (fun _ => none) 0 1000 500 (by decide)).2.2.2
    (fun _ _ => rfl)

/-- C10: outside the stated precondition, with `startSlot ≥ endSlot`, the
stride range is empty, so no block lookups are issued and the function
returns 0 (the sampled count is 0, the average defaults to 0, and the
extrapolated total is 0 even though `endSlot - startSlot` is
non-positive). -/
theorem estimate_total_transactions_empty_range (get_block : ℤ → Option ℕ)
    (a b : ℤ) (r : ℕ) (h : b ≤ a) (_hr : 0 < r) :
    pyRange a b r = [] ∧ estimate_total_transactions get_block a b r = 0 := by
  have hnil : pyRange a b r = [] := pyRange_eq_nil h r
  refine ⟨hnil, ?_⟩
  unfold estimate_total_transactions
  rw [hnil]
  norm_num [sample_blocks, pyInt]

/-- Witness for C10: a reversed range `[5, 3)` issues no lookups and
returns 0. -/
theorem estimate_total_transactions_empty_range_witness :
    pyRange 5 3 1000 = [] ∧
      estimate_total_transactions (fun _ => some 7) 5 3 1000 = 0 :=
  estimate_total_transactions_empty_range (fun _ => some 7) 5 3 1000
    (by decide) (by decide)

/-- C3 (counterexample): idempotence "from any starting store state" fails
when the starting state already holds two rows keyed by the same epoch
(a state the writer itself never creates, but the claim quantifies over all
states): calling `record_epoch_stats 5` twice on a store already holding
two rows keyed 5 leaves two rows keyed 5, not exactly one. -/
theorem record_epoch_stats_dup_cex :
    ¬ ((load_epoch_stats (record_epoch_stats 5 1000 0 (record_epoch_stats 5 1000 0
        (some [⟨5, 1, 0⟩, ⟨5, 2, 0⟩])))).countP (fun r => decide (r.epoch = 5)) = 1) := by
  decide

/-- C3 (amended): the second of two sequential `record_epoch_stats` calls
with the same epoch key is always a no-op, and when the starting store
holds at most one row keyed `e` (in particular any store the writer itself
built, or no store at all), two sequential calls leave exactly one stored
row whose key is `e`. -/
theorem record_epoch_stats_idempotent (e v : ℤ) (now : ℚ)
    (store : Option (List EpochStatRow)) :
    record_epoch_stats e v now (record_epoch_stats e v now store) =
      record_epoch_stats e v now store ∧
    ((load_epoch_stats store).countP (fun r => decide (r.epoch = e)) ≤ 1 →
      (load_epoch_stats (record_epoch_stats e v now (record_epoch_stats e v now store))).countP
        (fun r => decide (r.epoch = e)) = 1) := by
  rcases store with _ | df
  · constructor
    · simp [record_epoch_stats, load_epoch_stats]
    · intro _
      simp [record_epoch_stats, load_epoch_stats]
  · by_cases hmem : e ∈ df.map EpochStatRow.epoch
    · have hfst : record_epoch_stats e v now (some df) = some df := by
        simp [record_epoch_stats, hmem]
      refine ⟨by rw [hfst]; exact hfst, fun hle => ?_⟩
      rw [hfst, hfst]
      have hpos := (mem_keys_iff_countP_pos df e).mp hmem
      simp only [load_epoch_stats, Option.getD_some] at hle ⊢
      omega
    · have hfst : record_epoch_stats e v now (some df) = some (df ++ [⟨e, v, now⟩]) := by
        simp [record_epoch_stats, hmem]
      have hmem2 : e ∈ (df ++ [(⟨e, v, now⟩ : EpochStatRow)]).map EpochStatRow.epoch := by
        simp
      have hsnd : record_epoch_stats e v now (some (df ++ [⟨e, v, now⟩])) =
          some (df ++ [⟨e, v, now⟩]) := by
        simp [record_epoch_stats, hmem2]
      refine ⟨by rw [hfst, hsnd], fun _ => ?_⟩
      rw [hfst, hsnd]
      have hzero : df.countP (fun r => decide (r.epoch = e)) = 0 := by
        by_contra hne
        exact hmem ((mem_keys_iff_countP_pos df e).mpr (by omega))
      simp [load_epoch_stats, List.countP_append, hzero]

/-- Witness for C3 (amended): recording epoch 5 twice starting from no
backing file leaves exactly one row keyed 5. -/
theorem record_epoch_stats_idempotent_witness :
    (load_epoch_stats (record_epoch_stats 5 1000 0 (record_epoch_stats 5 1000 0 none))).countP
      (fun r => decide (r.epoch = 5)) = 1 :=
  (record_epoch_stats_idempotent 5 1000 0 none).2 (by decide)

/-- C2 (code divergence): at the start of epoch 100 (`slotIndex = 0 < 10`,
epoch starting at absolute slot 43200000), the engine does write the stat
record under the previous epoch's key 99, but the transaction estimate it
stores is computed over the slot range of the *current* epoch
`[43200000, 43631999)`: every slot it samples lies strictly after
43199999, the last slot of the previous epoch 99 (whose full range is
`[42768000, 43199999]`), for any block oracle, clock and starting store. -/
theorem render_current_epoch_store_current_range (get_block : ℤ → Option ℕ)
    (now : ℚ) (store : Option (List EpochStatRow)) :
    render_current_epoch_store get_block ⟨100, 0, 432000, 43200000⟩ now store =
      record_epoch_stats 99
        (estimate_total_transactions get_block 43200000 43631999 1000) now store ∧
    ∀ s ∈ pyRange 43200000 43631999 1000, 43199999 < s := by
  constructor
  · unfold render_current_epoch_store
    norm_num [epoch_start_slot, epoch_end_slot]
  · intro s hs
    have h := mem_pyRange_bounds (by norm_num) hs
    omega

/-- Witness for C2: the divergence theorem applied at a concrete oracle,
clock and store, together with the first sampled slot 43200000 lying
outside the previous epoch. -/
theorem render_current_epoch_store_current_range_witness :
    render_current_epoch_store (fun _ => none) ⟨100, 0, 432000, 43200000⟩ 0 none =
      record_epoch_stats 99
        (estimate_total_transactions (fun _ => none) 43200000 43631999 1000) 0 none ∧
    (43199999 : ℤ) < 43200000 :=
  ⟨(render_current_epoch_store_current_range (fun _ => none) 0 none).1,
    (render_current_epoch_store_current_range (fun _ => none) 0 none).2 43200000 (by decide)⟩

/-- C4: for every `currentEpoch ≥ 0` and `currentStartingSlot ≥ 0`,
`generate_full_epoch_history` returns exactly `currentEpoch + 1` records
ordered from the current epoch down to epoch 0, the record at offset `i`
having `epoch = currentEpoch - i`,
`startSlot = currentStartingSlot - SLOTS_PER_EPOCH * i` and
`endSlot = startSlot + SLOTS_PER_EPOCH - 1`; concretely, with
`currentEpoch = 3` and `currentStartingSlot = 1296000`, the 4 records have
epochs `[3, 2, 1, 0]`, epoch 3 spanning slots 1296000..1727999 and epoch 0
spanning slots 0..431999. -/
theorem generate_full_epoch_history_spec (e s : ℤ) (now : ℚ)
    (he : 0 ≤ e) (_hs : 0 ≤ s) :
    ((generate_full_epoch_history e s now).length : ℤ) = e + 1 ∧
    (∀ i : ℕ, (i : ℤ) ≤ e →
      ((generate_full_epoch_history e s now).map
          (fun row => (row.epoch, row.startSlot, row.endSlot)))[i]? =
        some (e - (i : ℤ), s - 432000 * (i : ℤ), s - 432000 * (i : ℤ) + 431999)) ∧
    ((generate_full_epoch_history 3 1296000 now).map
        (fun row => (row.epoch, row.startSlot, row.endSlot))) =
      [(3, 1296000, 1727999), (2, 864000, 1295999), (1, 432000, 863999), (0, 0, 431999)] := by
  refine ⟨?_, ?_, ?_⟩
  · simp [generate_full_epoch_history]
    omega
  · intro i hi
    have hlt : i < (e + 1).toNat := by omega
    unfold generate_full_epoch_history
    rw [List.map_map, List.getElem?_map, List.getElem?_range hlt]
    simp only [Option.map_some', Function.comp_apply, Option.some.injEq, Prod.mk.injEq,
      SLOTS_PER_EPOCH]
    refine ⟨trivial, ?_⟩
    omega
  · have h4 : (Int.toNat 4) = 4 := rfl
    norm_num [generate_full_epoch_history, SLOTS_PER_EPOCH, h4, List.range_succ]

/-- Witness for C4: the record at offset 1 of the concrete 4-epoch history
is epoch 2, spanning slots 864000..1295999. -/
theorem generate_full_epoch_history_spec_witness :
    ((generate_full_epoch_history 3 1296000 0).map
        (fun row => (row.epoch, row.startSlot, row.endSlot)))[1]? =
      some (2, 864000, 1295999) := by
  have h := (generate_full_epoch_history_spec 3 1296000 0 (by decide) (by decide)).2.1 1
    (by decide)
  simpa using h
